import Mathlib

/-!
Shallow embedding of the Mikrypto wallet data synchronization engine
(src/lib/api.ts and the storage/caching layer in src/lib/hooks.ts),
together with theorems settling the specification claims.

Modelling conventions:
* Bitcoin amounts and prices are rationals (JS numbers used exactly for
  the arithmetic the code performs: division by 1e8, multiplication).
* `localStorage` is modelled as an explicit `Store` record threaded
  through the state-passing versions of the storage functions.
* Network fetches are modelled by oracles (`NetEnv`): each endpoint is a
  function from the call index to the response; per-endpoint call
  counters live in `SyncState`, so "how many fetches were issued" is the
  difference of counters.  An endpoint whose TypeScript wrapper catches
  its own errors (price, mempool) is modelled by its post-catch value; an
  endpoint that can throw to the caller (`getAddressData`,
  `getAddressTxsChain`) is modelled with `Option` (`none` = rejection).
-/

namespace Mikrypto

/-- Direction of a canonical transaction ("send" | "receive"). -/
inductive TxType where
  | send
  | receive
deriving DecidableEq, Repr

/-- Confirmation status of a canonical transaction ("confirmed" | "pending"). -/
inductive TxStatus where
  | confirmed
  | pending
deriving DecidableEq, Repr

/-- Canonical transaction record (types.ts `Transaction`).
`from` and `to` are Lean keywords, hence `fromAddr`/`toAddr`. -/
structure Transaction where
  id : String
  hash : String
  type : TxType
  amount : ℚ
  timestamp : Nat
  fromAddr : String
  toAddr : String
  status : TxStatus
  fee : Option ℚ
  blockHeight : Option Nat
deriving DecidableEq, Repr

/-- Previous output of a raw transaction input (`prevout`):
`scriptpubkey_address` may be absent. -/
structure Prevout where
  scriptpubkey_address : Option String
deriving DecidableEq, Repr

/-- Raw transaction input (`vin` element); `prevout` may be absent (coinbase). -/
structure Vin where
  prevout : Option Prevout
deriving DecidableEq, Repr

/-- Raw transaction output (`vout` element); an output with no address
(e.g. OP_RETURN) has `scriptpubkey_address = none`. `value` is in satoshis. -/
structure Vout where
  scriptpubkey_address : Option String
  value : Nat
deriving DecidableEq, Repr

/-- Raw transaction status from the indexer. -/
structure RawTxStatus where
  confirmed : Bool
  block_time : Option Nat
  block_height : Option Nat
deriving DecidableEq, Repr

/-- Raw transaction as returned by the mempool.space indexer
(the fields `formatTransaction` reads). `fee` in satoshis. -/
structure RawTx where
  txid : String
  vin : List Vin
  vout : List Vout
  fee : Nat
  status : RawTxStatus
deriving DecidableEq, Repr

/-- JS `x || "Unknown"` on an optional string: `none` and the empty
string (both falsy) give `"Unknown"`. -/
def orUnknown : Option String → String
  | some s => if s = "" then "Unknown" else s
  | none => "Unknown"

/-- Satoshis to BTC: division by 100000000 (api.ts). -/
def satsToBTC (sats : Nat) : ℚ :=
  (sats : ℚ) / 100000000

/-- The address of an input's previous output, if any
(JS `input.prevout?.scriptpubkey_address`). -/
def Vin.prevAddr (i : Vin) : Option String :=
  i.prevout.bind Prevout.scriptpubkey_address

/-- Whether the watched address appears in some input's previous output
(api.ts `hasInputFromUser`). -/
def hasInputFromUser (tx : RawTx) (userAddress : String) : Bool :=
  tx.vin.any fun i => i.prevAddr = some userAddress

/-- Whether some output pays the watched address (api.ts `hasOutputToUser`). -/
def hasOutputToUser (tx : RawTx) (userAddress : String) : Bool :=
  tx.vout.any fun o => o.scriptpubkey_address = some userAddress

/-- Whether the watched address is involved in the raw record at all
(in an input's previous output or in an output). -/
def involved (tx : RawTx) (userAddress : String) : Bool :=
  hasInputFromUser tx userAddress || hasOutputToUser tx userAddress

/-- api.ts `formatTransaction`: classify one raw indexer record relative
to the watched address.  `now` stands for `Date.now()` (used when the
record carries no block time).  Total: the source returns a
`Transaction` for every record (no `null` branch). -/
def formatTransaction (now : Nat) (tx : RawTx) (userAddress : String) : Transaction :=
  let hasInput := hasInputFromUser tx userAddress
  let hasOutput := hasOutputToUser tx userAddress
  -- (type, amount in sats, fromAddress, toAddress), mirroring the if/else chain
  let r : TxType × Nat × String × String :=
    if hasInput && !hasOutput then
      -- Pure SEND: first output whose address differs from the user's
      let recipientOutput := tx.vout.find? fun o => o.scriptpubkey_address ≠ some userAddress
      (TxType.send, (recipientOutput.map Vout.value).getD 0, userAddress,
        orUnknown (recipientOutput.bind Vout.scriptpubkey_address))
    else if hasInput && hasOutput then
      -- SEND with change: same amount rule
      let recipientOutput := tx.vout.find? fun o => o.scriptpubkey_address ≠ some userAddress
      (TxType.send, (recipientOutput.map Vout.value).getD 0, userAddress,
        orUnknown (recipientOutput.bind Vout.scriptpubkey_address))
    else if !hasInput && hasOutput then
      -- RECEIVE: first output paying the user
      let userOutput := tx.vout.find? fun o => o.scriptpubkey_address = some userAddress
      (TxType.receive, (userOutput.map Vout.value).getD 0,
        orUnknown ((tx.vin.head?).bind Vin.prevAddr), userAddress)
    else
      (TxType.receive, 0, "Unknown", "Unknown")
  { id := tx.txid
    hash := tx.txid
    type := r.1
    amount := satsToBTC r.2.1
    timestamp :=
      match tx.status.block_time with
      | some t => if t = 0 then now else t * 1000
      | none => now
    fromAddr := r.2.2.1
    toAddr := r.2.2.2
    status := if tx.status.confirmed then TxStatus.confirmed else TxStatus.pending
    fee := some (satsToBTC tx.fee)
    blockHeight := tx.status.block_height }

/-- hooks.ts `BalanceCacheEntry`. -/
structure BalanceCacheEntry where
  balance : ℚ
  balanceUSD : ℚ
  timestamp : Nat
deriving DecidableEq, Repr

/-- hooks.ts `TxCacheEntry`. -/
structure TxCacheEntry where
  transactions : List Transaction
  lastTxId : Option String
  hasMore : Bool
deriving DecidableEq, Repr

/-- The two persisted cache maps (hooks.ts `BalanceCache` / `TxCache`
blobs in localStorage). -/
structure Store where
  balanceCache : String → Option BalanceCacheEntry
  txCache : String → Option TxCacheEntry

/-- hooks.ts `BALANCE_CACHE_TTL`: one hour in milliseconds. -/
def BALANCE_CACHE_TTL : Nat := 60 * 60 * 1000

/-- hooks.ts `getBalanceCache`: absent entry gives `none`; a present
entry is dropped when `now - entry.timestamp > BALANCE_CACHE_TTL`
(strict comparison in the source). -/
def getBalanceCache (now : Nat) (st : Store) (address : String) : Option BalanceCacheEntry :=
  match st.balanceCache address with
  | none => none
  | some entry =>
    if now - entry.timestamp > BALANCE_CACHE_TTL then none else some entry

/-- hooks.ts `saveBalanceCache`: overwrite the entry with a fresh timestamp. -/
def saveBalanceCache (now : Nat) (st : Store) (address : String)
    (balance balanceUSD : ℚ) : Store :=
  { st with
    balanceCache := fun a =>
      if a = address then some ⟨balance, balanceUSD, now⟩ else st.balanceCache a }

/-- hooks.ts `getTxCache`: plain lookup, no TTL. -/
def getTxCache (st : Store) (address : String) : Option TxCacheEntry :=
  st.txCache address

/-- hooks.ts `saveTxCache`: overwrite the transaction cache entry. -/
def saveTxCache (st : Store) (address : String) (transactions : List Transaction)
    (hasMore : Bool) (lastTxId : Option String) : Store :=
  { st with
    txCache := fun a =>
      if a = address then some ⟨transactions, lastTxId, hasMore⟩ else st.txCache a }

/-- hooks.ts `prependTxCache`: merge newer transactions at the head.
An incoming transaction whose id already occurs in the entry is dropped
(the existing copy is kept).  With no existing entry, saves the new
transactions with `hasMore = false` and no cursor. -/
def prependTxCache (st : Store) (address : String) (newTxs : List Transaction) : Store :=
  match getTxCache st address with
  | none => saveTxCache st address newTxs false none
  | some existing =>
    let existingIds := existing.transactions.map Transaction.id
    let uniqueNewTxs := newTxs.filter fun tx => !(existingIds.contains tx.id)
    saveTxCache st address (uniqueNewTxs ++ existing.transactions)
      existing.hasMore existing.lastTxId

/-- hooks.ts `appendTxCache`: merge older transactions at the tail for
pagination; the caller-supplied `hasMore`/`lastTxId` replace the entry's. -/
def appendTxCache (st : Store) (address : String) (moreTxs : List Transaction)
    (hasMore : Bool) (lastTxId : Option String) : Store :=
  match getTxCache st address with
  | none => saveTxCache st address moreTxs hasMore lastTxId
  | some existing =>
    let existingIds := existing.transactions.map Transaction.id
    let uniqueMoreTxs := moreTxs.filter fun tx => !(existingIds.contains tx.id)
    saveTxCache st address (existing.transactions ++ uniqueMoreTxs)
      hasMore lastTxId

/-- api.ts `getAddressTransactionsPage`, as a function of the awaited
indexer response (`none` models a rejected `getAddressTxsChain` call,
handled by the catch branch): an error or an empty/absent page yields
`([], false)`; otherwise the page with `hasMore` true exactly for a
25-record page. -/
def getAddressTransactionsPage (raw : Option (List RawTx)) : List RawTx × Bool :=
  match raw with
  | none => ([], false)
  | some txs =>
    if txs.length = 0 then ([], false)
    else (txs, txs.length == 25)

/-- types.ts `StoredWallet`: the minimal persisted wallet record. -/
structure StoredWallet where
  id : String
  nickname : String
  address : String
  createdAt : Nat
deriving DecidableEq, Repr

/-- types.ts `Wallet`: a stored wallet plus live data (the snapshot
`fetchWalletData` assembles).  `hasMoreTxs` is optional in the source
but every construction site sets it; `lastTxId` stays optional. -/
structure Wallet where
  id : String
  nickname : String
  address : String
  createdAt : Nat
  balance : ℚ
  balanceUSD : ℚ
  transactions : List Transaction
  lastUpdated : Nat
  hasMoreTxs : Bool
  lastTxId : Option String
deriving DecidableEq, Repr

/-- Network oracles: the response of the `n`-th call to each endpoint.
`priceResults` is the value `getBitcoinPrice` resolves to (it catches
its own errors and resolves to 0 on failure); `mempoolResults` likewise
for `getAddressMempoolTxs` (failure = `[]`).  `addrResults` is
`getAddressData` (`none` = the call throws); `pageResults` is the raw
`getAddressTxsChain` response consumed by `getAddressTransactionsPage`
(`none` = the call throws, caught inside that function). -/
structure NetEnv where
  priceResults : Nat → ℚ
  addrResults : Nat → Option ℚ
  mempoolResults : Nat → List RawTx
  pageResults : Nat → Option (List RawTx)

/-- Mutable state of a sync: the persisted caches plus one call counter
per network endpoint. -/
structure SyncState where
  store : Store
  nPrice : Nat
  nAddr : Nat
  nMempool : Nat
  nPage : Nat

/-- Issue one `getBitcoinPrice` call. -/
def fetchPrice (env : NetEnv) (s : SyncState) : ℚ × SyncState :=
  (env.priceResults s.nPrice, { s with nPrice := s.nPrice + 1 })

/-- Issue one `getAddressData` call (`none` = it threw); the result is
the computed BTC balance. -/
def fetchAddr (env : NetEnv) (s : SyncState) : Option ℚ × SyncState :=
  (env.addrResults s.nAddr, { s with nAddr := s.nAddr + 1 })

/-- Issue one `getAddressMempoolTxs` call (failures already mapped to `[]`). -/
def fetchMempool (env : NetEnv) (s : SyncState) : List RawTx × SyncState :=
  (env.mempoolResults s.nMempool, { s with nMempool := s.nMempool + 1 })

/-- Issue one confirmed-page fetch: the raw `getAddressTxsChain`
response run through `getAddressTransactionsPage`. -/
def fetchPage (env : NetEnv) (s : SyncState) : (List RawTx × Bool) × SyncState :=
  (getAddressTransactionsPage (env.pageResults s.nPage), { s with nPage := s.nPage + 1 })

/-- JS truthiness filter `(tx) => tx && tx.txid` on a raw transaction list. -/
def filterValid (txs : List RawTx) : List RawTx :=
  txs.filter fun tx => tx.txid ≠ ""

/-- The no-cache path of the transaction part of `fetchWalletData`:
fetch one confirmed page plus the mempool set, classify, and save a
brand-new cache entry.  Returns `(transactions, hasMoreTxs, lastTxId)`
and the updated state. -/
def txStepFresh (now : Nat) (env : NetEnv) (address : String) (s : SyncState) :
    (List Transaction × Bool × Option String) × SyncState :=
  let (txsResult, s1) := fetchPage env s
  let (mempoolTxs, s2) := fetchMempool env s1
  let allTxs := mempoolTxs ++ txsResult.1
  let transactions := (filterValid allTxs).map fun tx => formatTransaction now tx address
  let hasMoreTxs := txsResult.2
  let lastTxId : Option String :=
    if txsResult.1.length > 0 then txsResult.1.getLast?.map RawTx.txid else none
  let s3 := { s2 with store := saveTxCache s2.store address transactions hasMoreTxs lastTxId }
  ((transactions, hasMoreTxs, lastTxId), s3)

/-- Dispatch of the transaction part of `fetchWalletData`: non-empty
cached entry means mempool-only refresh, anything else the fresh path. -/
def txStep (now : Nat) (env : NetEnv) (address : String) (s : SyncState) :
    (List Transaction × Bool × Option String) × SyncState :=
  match getTxCache s.store address with
  | some txc =>
    if txc.transactions.length > 0 then
      let (mempoolTxs, s1) := fetchMempool env s
      let formattedMempoolTxs :=
        (filterValid mempoolTxs).map fun tx => formatTransaction now tx address
      let s2 :=
        if formattedMempoolTxs.length > 0 then
          { s1 with store := prependTxCache s1.store address formattedMempoolTxs }
        else s1
      match getTxCache s2.store address with
      | some updatedCache =>
        ((updatedCache.transactions, updatedCache.hasMore, updatedCache.lastTxId), s2)
      | none => (([], false, none), s2)
    else txStepFresh now env address s
  | none => txStepFresh now env address s

/-- The fresh-balance path of `fetchWalletData` (api.ts lines 234-245):
`Promise.all` of `getAddressData` and `getBitcoinPrice` (both calls are
issued even when the former rejects), then cache the result when
`balance >= 0 && btcPrice > 0`.  `error` = the `getAddressData`
rejection propagating out of the try block, carrying the state reached. -/
def freshBalanceStep (now : Nat) (env : NetEnv) (address : String) (s : SyncState) :
    Except SyncState ((ℚ × ℚ) × SyncState) :=
  let (adRes, s1) := fetchAddr env s
  let (btcPrice, s2) := fetchPrice env s1
  match adRes with
  | none => Except.error s2
  | some balance =>
    let balanceUSD := balance * btcPrice
    let s3 :=
      if balance ≥ 0 ∧ btcPrice > 0 then
        { s2 with store := saveBalanceCache now s2.store address balance balanceUSD }
      else s2
    Except.ok ((balance, balanceUSD), s3)

/-- The balance part of `fetchWalletData` (api.ts lines 228-245): a
valid cache entry with strictly positive balance is used as is; any
other outcome of the cache read falls through to `freshBalanceStep`. -/
def balanceStep (now : Nat) (env : NetEnv) (address : String) (s : SyncState) :
    Except SyncState ((ℚ × ℚ) × SyncState) :=
  match getBalanceCache now s.store address with
  | some bc =>
    if bc.balance > 0 then Except.ok ((bc.balance, bc.balanceUSD), s)
    else freshBalanceStep now env address s
  | none => freshBalanceStep now env address s

/-- The `try` block of api.ts `fetchWalletData`.  The only statement in
it that can throw is the fresh `getAddressData` call inside
`freshBalanceStep`; the transaction step never throws (every fetch it
performs catches its own errors). -/
def fetchWalletDataTry (now : Nat) (env : NetEnv) (w : StoredWallet)
    (s0 : SyncState) : Except SyncState (Wallet × SyncState) :=
  match balanceStep now env w.address s0 with
  | Except.error sErr => Except.error sErr
  | Except.ok ((balance, balanceUSD), sBal) =>
    let (txData, sTx) := txStep now env w.address sBal
    Except.ok
      ({ id := w.id, nickname := w.nickname, address := w.address,
         createdAt := w.createdAt,
         balance := balance, balanceUSD := balanceUSD,
         transactions := txData.1,
         lastUpdated := now,
         hasMoreTxs := txData.2.1,
         lastTxId := txData.2.2 }, sTx)

/-- The catch branch of api.ts `fetchWalletData`: retry with a minimal
fresh balance + price fetch and no transactions; if the retry also
throws, return an all-zero snapshot (the nested catch). -/
def fetchWalletDataCatch (now : Nat) (env : NetEnv) (w : StoredWallet)
    (sErr : SyncState) : Wallet × SyncState :=
  let (adRes, s1) := fetchAddr env sErr
  let (btcPrice, s2) := fetchPrice env s1
  match adRes with
  | some balance =>
    ({ id := w.id, nickname := w.nickname, address := w.address,
       createdAt := w.createdAt,
       balance := balance, balanceUSD := balance * btcPrice,
       transactions := [], lastUpdated := now,
       hasMoreTxs := false, lastTxId := none }, s2)
  | none =>
    ({ id := w.id, nickname := w.nickname, address := w.address,
       createdAt := w.createdAt,
       balance := 0, balanceUSD := 0,
       transactions := [], lastUpdated := now,
       hasMoreTxs := false, lastTxId := none }, s2)

/-- api.ts `fetchWalletData` with its catch cascade.  Total: the
TypeScript function never rethrows. -/
def fetchWalletData (now : Nat) (env : NetEnv) (w : StoredWallet)
    (s0 : SyncState) : Wallet × SyncState :=
  match fetchWalletDataTry now env w s0 with
  | Except.ok r => r
  | Except.error sErr => fetchWalletDataCatch now env w sErr

/-- Loop body of api.ts `fetchAllWalletsData` for one wallet: run the
single-wallet sync, then, when the resulting balance is exactly zero
AND the up-front price is positive, issue one extra `getAddressData`
re-fetch, adopting its balance only when positive (the re-fetch throwing
is caught and the zero kept).  The outer try/catch of the source loop is
unreachable here because `fetchWalletData` never throws. -/
def syncOne (now : Nat) (env : NetEnv) (btcPrice : ℚ) (w : StoredWallet)
    (s : SyncState) : Wallet × SyncState :=
  let (wallet, s1) := fetchWalletData now env w s
  if wallet.balance = 0 ∧ btcPrice > 0 then
    let (adRes, s2) := fetchAddr env s1
    match adRes with
    | some b =>
      if b > 0 then
        ({ wallet with balance := b, balanceUSD := b * btcPrice },
         { s2 with store := saveBalanceCache now s2.store w.address b (b * btcPrice) })
      else (wallet, s2)
    | none => (wallet, s2)
  else (wallet, s1)

/-- Sequential iteration of `syncOne` over the wallet list (the rate
limiting delay has no observable effect in this model). -/
def syncAllGo (now : Nat) (env : NetEnv) (btcPrice : ℚ) :
    List StoredWallet → SyncState → List Wallet × SyncState
  | [], s => ([], s)
  | w :: rest, s =>
    let (wallet, s1) := syncOne now env btcPrice w s
    let (ws, s2) := syncAllGo now env btcPrice rest s1
    (wallet :: ws, s2)

/-- api.ts `fetchAllWalletsData`: one up-front price fetch shared by the
batch, then the sequential per-wallet loop. -/
def fetchAllWalletsData (now : Nat) (env : NetEnv) (storedWallets : List StoredWallet)
    (s0 : SyncState) : List Wallet × SyncState :=
  let (btcPrice, s1) := fetchPrice env s0
  syncAllGo now env btcPrice storedWallets s1

/-! ### Concrete instances used to evaluate the definitions -/

/-- A store with no cached data. -/
def emptyStore : Store :=
  ⟨fun _ => none, fun _ => none⟩

/-- Initial sync state over a store, all call counters zero. -/
def initState (st : Store) : SyncState :=
  ⟨st, 0, 0, 0, 0⟩

/-- A quiet network: price 5, every address balance 1 BTC, no transactions. -/
def quietEnv : NetEnv :=
  ⟨fun _ => 5, fun _ => some 1, fun _ => [], fun _ => some []⟩

/-- A dead network: price fetch fails (resolves 0), address and page fetches throw. -/
def deadEnv : NetEnv :=
  ⟨fun _ => 0, fun _ => none, fun _ => [], fun _ => none⟩

/-- A network whose price feed fails (resolves 0) while every address
reports a zero balance. -/
def priceZeroEnv : NetEnv :=
  ⟨fun _ => 0, fun _ => some 0, fun _ => [], fun _ => some []⟩

/-- A network that reports balance 0 on the first address call and
balance 2 afterwards, with price 5. -/
def zeroThenTwoEnv : NetEnv :=
  ⟨fun _ => 5, fun n => if n = 0 then some 0 else some 2, fun _ => [], fun _ => some []⟩

/-- A stored wallet watching address `"me"`. -/
def wMe : StoredWallet :=
  ⟨"wallet_1", "mine", "me", 0⟩

/-- A pending canonical transaction with id `"tx9"`. -/
def c1Pending : Transaction :=
  ⟨"tx9", "tx9", TxType.receive, 1, 0, "x", "me", TxStatus.pending, none, none⟩

/-- The confirmed counterpart of `c1Pending`: same id, `status = confirmed`. -/
def c1Confirmed : Transaction :=
  ⟨"tx9", "tx9", TxType.receive, 1, 9000, "x", "me", TxStatus.confirmed, some 0, some 5⟩

/-- A raw record in which address `"me"` appears in no input prevout and
no output: not involved. -/
def c2Raw : RawTx :=
  ⟨"tz", [⟨some ⟨some "other1"⟩⟩], [⟨some "other2", 500⟩], 10, ⟨true, some 100, some 7⟩⟩

/-- A balance cache entry: 1 BTC, written at time 0. -/
def bcePositive : BalanceCacheEntry :=
  ⟨1, 50000, 0⟩

/-- A store holding `bcePositive` for address `"me"`. -/
def storeBalMe : Store :=
  ⟨fun a => if a = "me" then some bcePositive else none, fun _ => none⟩

/-- A second stored wallet watching address `"you"`. -/
def wYou : StoredWallet :=
  ⟨"wallet_2", "yours", "you", 0⟩

/-- A store holding valid positive balance entries for `"me"` and `"you"`. -/
def storeBalBoth : Store :=
  ⟨fun a => if a = "me" then some bcePositive else if a = "you" then some ⟨2, 100000, 0⟩ else none,
   fun _ => none⟩

/-- Cached transactions for address `"me"`: one confirmed transaction
`"a1"`, cursor `"a1"`, more available. -/
def storeTxMe : Store :=
  ⟨fun _ => none,
   fun a => if a = "me" then
      some ⟨[⟨"a1", "a1", TxType.receive, 3, 1000, "x", "me", TxStatus.confirmed, some 0, some 2⟩],
        some "a1", true⟩
    else none⟩

/-- The cached transaction stored in `storeTxMe`. -/
def txA1 : Transaction :=
  ⟨"a1", "a1", TxType.receive, 3, 1000, "x", "me", TxStatus.confirmed, some 0, some 2⟩

/-- An older transaction `"a2"` for append merges. -/
def txA2 : Transaction :=
  ⟨"a2", "a2", TxType.send, 2, 500, "me", "y", TxStatus.confirmed, some 0, some 1⟩

/-- A newer pending transaction `"a3"` for prepend merges. -/
def txA3 : Transaction :=
  ⟨"a3", "a3", TxType.receive, 7, 2000, "z", "me", TxStatus.pending, some 0, none⟩

/-- A duplicate of `txA1` (same id, different payload) used to exercise
de-duplication. -/
def txA1dup : Transaction :=
  ⟨"a1", "a1", TxType.receive, 3, 1000, "x", "me", TxStatus.pending, some 0, none⟩

/-! ### Helper lemmas about the cache layer -/

theorem getTxCache_saveTxCache_same (st : Store) (a : String) (txs : List Transaction)
    (hm : Bool) (l : Option String) :
    getTxCache (saveTxCache st a txs hm l) a = some ⟨txs, l, hm⟩ := by
  simp [getTxCache, saveTxCache]

theorem prependTxCache_some_eq (st : Store) (a : String) (newTxs : List Transaction)
    (e : TxCacheEntry) (he : getTxCache st a = some e) :
    prependTxCache st a newTxs =
      saveTxCache st a
        ((newTxs.filter fun tx => !((e.transactions.map Transaction.id).contains tx.id))
          ++ e.transactions) e.hasMore e.lastTxId := by
  unfold prependTxCache
  rw [he]

theorem prependTxCache_none_eq (st : Store) (a : String) (newTxs : List Transaction)
    (he : getTxCache st a = none) :
    prependTxCache st a newTxs = saveTxCache st a newTxs false none := by
  unfold prependTxCache
  rw [he]

theorem appendTxCache_some_eq (st : Store) (a : String) (moreTxs : List Transaction)
    (hm : Bool) (l : Option String) (e : TxCacheEntry) (he : getTxCache st a = some e) :
    appendTxCache st a moreTxs hm l =
      saveTxCache st a
        (e.transactions ++
          (moreTxs.filter fun tx => !((e.transactions.map Transaction.id).contains tx.id)))
        hm l := by
  unfold appendTxCache
  rw [he]

/-! ### Claim theorems: pagination and balance-cache TTL -/

/-- C7: `getAddressTransactionsPage` reports `hasMore = true` exactly
when the returned page holds 25 records; a smaller page (empty page and
failed fetch included) yields `hasMore = false`. -/
theorem getAddressTransactionsPage_hasMore_iff (raw : Option (List RawTx)) :
    (getAddressTransactionsPage raw).2 = true ↔
      (getAddressTransactionsPage raw).1.length = 25 := by
  cases raw with
  | none => simp [getAddressTransactionsPage]
  | some txs =>
    by_cases h : txs.length = 0
    · simp [getAddressTransactionsPage, h]
    · simp [getAddressTransactionsPage, h]

/-- C4 (counterexample): a balance cache entry whose age is exactly the
one-hour TTL is NOT treated as expired — `getBalanceCache` still
returns it, while the claim says age `>= TTL` gives `null`. -/
theorem getBalanceCache_ttl_boundary :
    getBalanceCache 3600000 storeBalMe "me" = some bcePositive ∧
    3600000 - bcePositive.timestamp ≥ BALANCE_CACHE_TTL := by
  exact ⟨rfl, by decide⟩

/-- C4 (amended): `getBalanceCache` returns `none` exactly when no
entry exists for the address or the entry's age is STRICTLY greater
than the one-hour TTL; an entry aged exactly the TTL is still valid. -/
theorem getBalanceCache_none_iff (now : Nat) (st : Store) (address : String) :
    getBalanceCache now st address = none ↔
      (st.balanceCache address = none ∨
        ∃ e, st.balanceCache address = some e ∧
          now - e.timestamp > BALANCE_CACHE_TTL) := by
  unfold getBalanceCache
  cases h : st.balanceCache address with
  | none => simp
  | some e =>
    by_cases hx : now - e.timestamp > BALANCE_CACHE_TTL <;> simp [hx]

/-! ### Claim theorems: transaction-cache merges -/

/-- C10: prepend-merging into an existing entry keeps that entry's
`hasMore` flag and `lastTxId` cursor and only changes the transaction
sequence; with no existing entry it creates one with `hasMore = false`
and no cursor, whatever the incoming transactions. -/
theorem prependTxCache_preserves_flags (st : Store) (address : String)
    (newTxs : List Transaction) :
    (∀ e, getTxCache st address = some e →
      getTxCache (prependTxCache st address newTxs) address =
        some ⟨(newTxs.filter fun tx =>
            !((e.transactions.map Transaction.id).contains tx.id)) ++ e.transactions,
          e.lastTxId, e.hasMore⟩) ∧
    (getTxCache st address = none →
      getTxCache (prependTxCache st address newTxs) address = some ⟨newTxs, none, false⟩) := by
  constructor
  · intro e he
    rw [prependTxCache_some_eq st address newTxs e he]
    exact getTxCache_saveTxCache_same ..
  · intro he
    rw [prependTxCache_none_eq st address newTxs he]
    exact getTxCache_saveTxCache_same ..

/-- C10 (witness): evaluated on the concrete store `storeTxMe` at an
address with an entry and at one without. -/
theorem prependTxCache_preserves_flags_wit :
    getTxCache (prependTxCache storeTxMe "me" [txA3]) "me" =
      some ⟨([txA3].filter fun tx =>
          !((([txA1] : List Transaction).map Transaction.id).contains tx.id)) ++ [txA1],
        some "a1", true⟩ ∧
    getTxCache (prependTxCache storeTxMe "you" [txA3]) "you" = some ⟨[txA3], none, false⟩ :=
  ⟨(prependTxCache_preserves_flags storeTxMe "me" [txA3]).1 ⟨[txA1], some "a1", true⟩ rfl,
   (prependTxCache_preserves_flags storeTxMe "you" [txA3]).2 rfl⟩

/-- C1 (counterexample): prepend-merging a pending transaction and then
its confirmed counterpart with the same id keeps the STALE PENDING copy
— the incoming confirmed copy is dropped, contrary to the claim that
the newly merged copy wins and the cached status becomes confirmed. -/
theorem prepend_pending_then_confirmed_cx :
    getTxCache (prependTxCache (prependTxCache emptyStore "me" [c1Pending]) "me"
        [c1Confirmed]) "me" = some ⟨[c1Pending], none, false⟩ ∧
    c1Pending.status = TxStatus.pending ∧
    c1Confirmed.status = TxStatus.confirmed ∧
    c1Confirmed.id = c1Pending.id := by
  decide

/-- C1 (amended): when an incoming transaction's id collides with a
cached one, `prependTxCache` keeps the EXISTING copy; merging a pending
transaction and later its confirmed counterpart (same id) yields
exactly one cached entry for that id, still with `status = pending`. -/
theorem prepend_pending_then_confirmed (st : Store) (a : String) (p c : Transaction)
    (hnone : getTxCache st a = none) (hid : c.id = p.id)
    (hp : p.status = TxStatus.pending) :
    ∃ e, getTxCache (prependTxCache (prependTxCache st a [p]) a [c]) a = some e ∧
      e.transactions = [p] ∧
      e.transactions.map Transaction.status = [TxStatus.pending] := by
  rw [prependTxCache_none_eq st a [p] hnone]
  have h1 : getTxCache (saveTxCache st a [p] false none) a = some ⟨[p], none, false⟩ :=
    getTxCache_saveTxCache_same ..
  rw [prependTxCache_some_eq _ a [c] ⟨[p], none, false⟩ h1]
  have hfilter : ([c].filter fun tx =>
      !((([p] : List Transaction).map Transaction.id).contains tx.id)) = [] := by
    simp [List.contains, hid]
  refine ⟨⟨[p], none, false⟩, ?_, rfl, by simp [hp]⟩
  rw [show ((([c].filter fun tx =>
      !((([p] : List Transaction).map Transaction.id).contains tx.id)) ++ [p]) = [p]) from by
    rw [hfilter]; rfl]
  exact getTxCache_saveTxCache_same ..

/-- C1 (witness): the amended statement evaluated on `c1Pending` and
`c1Confirmed` over the empty store. -/
theorem prepend_pending_then_confirmed_wit :
    ∃ e, getTxCache (prependTxCache (prependTxCache emptyStore "me" [c1Pending]) "me"
        [c1Confirmed]) "me" = some e ∧
      e.transactions = [c1Pending] ∧
      e.transactions.map Transaction.status = [TxStatus.pending] :=
  prepend_pending_then_confirmed emptyStore "me" c1Pending c1Confirmed rfl rfl rfl

/-! ### De-duplication lemmas for the merge operations -/

theorem filterNew_map_id_nodup (xs ys : List Transaction)
    (hy : (ys.map Transaction.id).Nodup) :
    ((ys.filter fun t => !((xs.map Transaction.id).contains t.id)).map
      Transaction.id).Nodup :=
  List.Nodup.sublist ((ys.filter_sublist).map Transaction.id) hy

theorem filterNew_disjoint_ids (xs ys : List Transaction) :
    List.Disjoint
      ((ys.filter fun t => !((xs.map Transaction.id).contains t.id)).map Transaction.id)
      (xs.map Transaction.id) := by
  intro b hb hbx
  rcases List.mem_map.mp hb with ⟨t, ht, rfl⟩
  rcases List.mem_filter.mp ht with ⟨-, hcond⟩
  simp [List.contains] at hcond
  rcases List.mem_map.mp hbx with ⟨u, hu, hid⟩
  exact hcond u hu hid

theorem prependMerge_id_nodup (xs ys : List Transaction)
    (hx : (xs.map Transaction.id).Nodup) (hy : (ys.map Transaction.id).Nodup) :
    (((ys.filter fun t => !((xs.map Transaction.id).contains t.id)) ++ xs).map
      Transaction.id).Nodup := by
  rw [List.map_append]
  exact (filterNew_map_id_nodup xs ys hy).append hx (filterNew_disjoint_ids xs ys)

theorem appendMerge_id_nodup (xs ys : List Transaction)
    (hx : (xs.map Transaction.id).Nodup) (hy : (ys.map Transaction.id).Nodup) :
    ((xs ++ (ys.filter fun t => !((xs.map Transaction.id).contains t.id))).map
      Transaction.id).Nodup := by
  rw [List.map_append]
  exact hx.append (filterNew_map_id_nodup xs ys hy) (filterNew_disjoint_ids xs ys).symm

/-- C8: starting from a duplicate-free cache entry, an `appendTxCache`
(mergeOlder) followed by a `prependTxCache` (mergeNewer), each with a
duplicate-free argument, keeps the no-duplicate-id invariant, and each
merge grows the sequence by exactly the number of incoming transactions
whose ids were not already present. -/
theorem txCache_merge_invariant (st : Store) (a : String) (e : TxCacheEntry)
    (olderTxs newerTxs : List Transaction) (hm : Bool) (cursor : Option String)
    (he : getTxCache st a = some e)
    (hnd : (e.transactions.map Transaction.id).Nodup)
    (hold : (olderTxs.map Transaction.id).Nodup)
    (hnew : (newerTxs.map Transaction.id).Nodup) :
    ∃ e1 e2,
      getTxCache (appendTxCache st a olderTxs hm cursor) a = some e1 ∧
      getTxCache (prependTxCache (appendTxCache st a olderTxs hm cursor) a newerTxs) a
        = some e2 ∧
      (e1.transactions.map Transaction.id).Nodup ∧
      (e2.transactions.map Transaction.id).Nodup ∧
      e1.transactions.length = e.transactions.length +
        (olderTxs.filter fun t =>
          !((e.transactions.map Transaction.id).contains t.id)).length ∧
      e2.transactions.length = e1.transactions.length +
        (newerTxs.filter fun t =>
          !((e1.transactions.map Transaction.id).contains t.id)).length := by
  rw [appendTxCache_some_eq st a olderTxs hm cursor e he]
  have h1 := getTxCache_saveTxCache_same st a
    (e.transactions ++ (olderTxs.filter fun t =>
      !((e.transactions.map Transaction.id).contains t.id))) hm cursor
  rw [prependTxCache_some_eq _ a newerTxs _ h1]
  have hnd1 := appendMerge_id_nodup e.transactions olderTxs hnd hold
  refine ⟨_, _, h1, getTxCache_saveTxCache_same .., hnd1,
    prependMerge_id_nodup _ newerTxs hnd1 hnew, by simp, by simp [Nat.add_comm]⟩

/-- C8 (witness): the invariant evaluated on the concrete store
`storeTxMe` with overlapping ids on both merges. -/
theorem txCache_merge_invariant_wit :
    ∃ e1 e2,
      getTxCache (appendTxCache storeTxMe "me" [txA1dup, txA2] false (some "a2")) "me"
        = some e1 ∧
      getTxCache (prependTxCache
        (appendTxCache storeTxMe "me" [txA1dup, txA2] false (some "a2")) "me"
        [txA3, txA1dup]) "me" = some e2 ∧
      (e1.transactions.map Transaction.id).Nodup ∧
      (e2.transactions.map Transaction.id).Nodup ∧
      e1.transactions.length = ([txA1] : List Transaction).length +
        (([txA1dup, txA2] : List Transaction).filter fun t =>
          !((([txA1] : List Transaction).map Transaction.id).contains t.id)).length ∧
      e2.transactions.length = e1.transactions.length +
        (([txA3, txA1dup] : List Transaction).filter fun t =>
          !((e1.transactions.map Transaction.id).contains t.id)).length :=
  txCache_merge_invariant storeTxMe "me" ⟨[txA1], some "a1", true⟩ [txA1dup, txA2]
    [txA3, txA1dup] false (some "a2") rfl (by decide) (by decide) (by decide)

/-! ### Claim theorems: the transaction classifier -/

/-- C2 (counterexample): a raw record in which the watched address is
not involved still makes `formatTransaction` emit a canonical
transaction (a receive of amount 0 with Unknown endpoints) — the
source has no `null` branch, contrary to the claim. -/
theorem formatTransaction_uninvolved_cx :
    involved c2Raw "me" = false ∧
    formatTransaction 0 c2Raw "me" =
      { id := "tz", hash := "tz", type := TxType.receive, amount := 0,
        timestamp := 100000, fromAddr := "Unknown", toAddr := "Unknown",
        status := TxStatus.confirmed, fee := some (satsToBTC 10),
        blockHeight := some 7 } := by
  refine ⟨by decide, ?_⟩
  simp [formatTransaction, c2Raw, hasInputFromUser, hasOutputToUser, Vin.prevAddr,
    orUnknown, satsToBTC]

/-- C2 (amended): for every raw record in which the watched address is
not involved, `formatTransaction` still produces exactly one canonical
transaction, namely a `receive` of amount 0 between Unknown endpoints;
for involved records it likewise produces exactly one transaction. -/
theorem formatTransaction_uninvolved (now : Nat) (tx : RawTx) (userAddress : String)
    (h : involved tx userAddress = false) :
    formatTransaction now tx userAddress =
      { id := tx.txid, hash := tx.txid, type := TxType.receive, amount := 0,
        timestamp :=
          match tx.status.block_time with
          | some t => if t = 0 then now else t * 1000
          | none => now,
        fromAddr := "Unknown", toAddr := "Unknown",
        status := if tx.status.confirmed then TxStatus.confirmed else TxStatus.pending,
        fee := some (satsToBTC tx.fee), blockHeight := tx.status.block_height } := by
  unfold involved at h
  obtain ⟨h1, h2⟩ := Bool.or_eq_false_iff.mp h
  simp [formatTransaction, h1, h2, satsToBTC]

/-- C2 (witness): the amended statement evaluated on `c2Raw`. -/
theorem formatTransaction_uninvolved_wit :
    formatTransaction 3 c2Raw "me" =
      { id := "tz", hash := "tz", type := TxType.receive, amount := 0,
        timestamp := 100000, fromAddr := "Unknown", toAddr := "Unknown",
        status := TxStatus.confirmed, fee := some (satsToBTC 10),
        blockHeight := some 7 } :=
  formatTransaction_uninvolved 3 c2Raw "me" (by decide)

/-! ### Helper lemmas about the synchronizer -/

theorem getBalanceCache_congr {st st' : Store} (h : st.balanceCache = st'.balanceCache)
    (now : Nat) (a : String) :
    getBalanceCache now st a = getBalanceCache now st' a := by
  unfold getBalanceCache
  rw [h]

theorem prependTxCache_balanceCache_eq (st : Store) (a : String)
    (newTxs : List Transaction) :
    (prependTxCache st a newTxs).balanceCache = st.balanceCache := by
  unfold prependTxCache
  cases getTxCache st a <;> rfl

/-- The transaction step touches only the transaction cache and the
mempool/page counters: price and address counters and the balance cache
are untouched. -/
theorem txStepFresh_frame (now : Nat) (env : NetEnv) (address : String) (s : SyncState) :
    (txStepFresh now env address s).2.nPrice = s.nPrice ∧
    (txStepFresh now env address s).2.nAddr = s.nAddr ∧
    (txStepFresh now env address s).2.store.balanceCache = s.store.balanceCache :=
  ⟨rfl, rfl, rfl⟩

theorem txStep_frame (now : Nat) (env : NetEnv) (address : String) (s : SyncState) :
    (txStep now env address s).2.nPrice = s.nPrice ∧
    (txStep now env address s).2.nAddr = s.nAddr ∧
    (txStep now env address s).2.store.balanceCache = s.store.balanceCache := by
  unfold txStep
  cases hg : getTxCache s.store address with
  | none => exact txStepFresh_frame now env address s
  | some txc =>
    by_cases hl : txc.transactions.length > 0
    · simp only [hl, if_pos]
      set s1 := (fetchMempool env s).2 with hs1
      set fm := (filterValid (fetchMempool env s).1).map
        (fun tx => formatTransaction now tx address) with hfm
      by_cases hf : fm.length > 0
      · simp only [hf, if_pos]
        cases getTxCache (prependTxCache s1.store address fm) address <;>
          exact ⟨rfl, rfl, prependTxCache_balanceCache_eq ..⟩
      · simp only [hf, if_neg, ite_false]
        cases getTxCache s1.store address <;> exact ⟨rfl, rfl, rfl⟩
    · simp only [hl, if_neg, ite_false]
      exact txStepFresh_frame now env address s

/-- Behavior of `freshBalanceStep` when the address fetch succeeds. -/
theorem freshBalanceStep_ok (now : Nat) (env : NetEnv) (address : String)
    (s : SyncState) (b : ℚ) (hb : env.addrResults s.nAddr = some b) :
    freshBalanceStep now env address s =
      Except.ok ((b, b * env.priceResults s.nPrice),
        if b ≥ 0 ∧ env.priceResults s.nPrice > 0 then
          { s with
            nAddr := s.nAddr + 1
            nPrice := s.nPrice + 1
            store := saveBalanceCache now s.store address b
              (b * env.priceResults s.nPrice) }
        else { s with nAddr := s.nAddr + 1, nPrice := s.nPrice + 1 }) := by
  unfold freshBalanceStep fetchAddr fetchPrice
  simp only [hb]

/-- Behavior of `freshBalanceStep` when the address fetch throws. -/
theorem freshBalanceStep_err (now : Nat) (env : NetEnv) (address : String)
    (s : SyncState) (hb : env.addrResults s.nAddr = none) :
    freshBalanceStep now env address s =
      Except.error { s with nAddr := s.nAddr + 1, nPrice := s.nPrice + 1 } := by
  unfold freshBalanceStep fetchAddr fetchPrice
  simp only [hb]

/-- A cache read that is absent or non-positive falls through to the
fresh path. -/
theorem balanceStep_miss (now : Nat) (env : NetEnv) (address : String) (s : SyncState)
    (h : getBalanceCache now s.store address = none ∨
      ∃ bc, getBalanceCache now s.store address = some bc ∧ bc.balance ≤ 0) :
    balanceStep now env address s = freshBalanceStep now env address s := by
  unfold balanceStep
  rcases h with h | ⟨bc, h, hle⟩ <;> simp only [h]
  rw [if_neg (not_lt.mpr hle)]

/-- A valid, strictly positive cache entry short-circuits the balance step. -/
theorem balanceStep_hit (now : Nat) (env : NetEnv) (address : String) (s : SyncState)
    (bc : BalanceCacheEntry) (hbc : getBalanceCache now s.store address = some bc)
    (hpos : bc.balance > 0) :
    balanceStep now env address s = Except.ok ((bc.balance, bc.balanceUSD), s) := by
  unfold balanceStep
  simp only [hbc]
  rw [if_pos hpos]

/-- Evaluation of `fetchWalletData` on a balance-cache hit: cached figures, then the
transaction step, no fallback. -/
theorem fetchWalletData_cached (now : Nat) (env : NetEnv) (w : StoredWallet)
    (s : SyncState) (bc : BalanceCacheEntry)
    (hbc : getBalanceCache now s.store w.address = some bc) (hpos : bc.balance > 0) :
    fetchWalletData now env w s =
      ({ id := w.id, nickname := w.nickname, address := w.address,
         createdAt := w.createdAt,
         balance := bc.balance, balanceUSD := bc.balanceUSD,
         transactions := (txStep now env w.address s).1.1,
         lastUpdated := now,
         hasMoreTxs := (txStep now env w.address s).1.2.1,
         lastTxId := (txStep now env w.address s).1.2.2 },
        (txStep now env w.address s).2) := by
  unfold fetchWalletData fetchWalletDataTry
  rw [balanceStep_hit now env w.address s bc hbc hpos]

theorem fetchWalletData_cached_frame (now : Nat) (env : NetEnv) (w : StoredWallet)
    (s : SyncState) (bc : BalanceCacheEntry)
    (hbc : getBalanceCache now s.store w.address = some bc) (hpos : bc.balance > 0) :
    (fetchWalletData now env w s).2.nPrice = s.nPrice ∧
    (fetchWalletData now env w s).2.nAddr = s.nAddr ∧
    (fetchWalletData now env w s).2.store.balanceCache = s.store.balanceCache ∧
    (fetchWalletData now env w s).1.balance = bc.balance := by
  rw [fetchWalletData_cached now env w s bc hbc hpos]
  obtain ⟨h1, h2, h3⟩ := txStep_frame now env w.address s
  exact ⟨h1, h2, h3, rfl⟩

/-- When the post-sync balance is nonzero or the up-front price is not
positive, the batch loop body adds nothing to the single-wallet sync. -/
theorem syncOne_no_recheck (now : Nat) (env : NetEnv) (btcPrice : ℚ)
    (w : StoredWallet) (s : SyncState)
    (h : ¬((fetchWalletData now env w s).1.balance = 0 ∧ btcPrice > 0)) :
    syncOne now env btcPrice w s = fetchWalletData now env w s := by
  unfold syncOne
  rcases hfw : fetchWalletData now env w s with ⟨W, S⟩
  rw [hfw] at h
  simp only [hfw]
  rw [if_neg h]

theorem syncOne_cached_frame (now : Nat) (env : NetEnv) (btcPrice : ℚ)
    (w : StoredWallet) (s : SyncState) (bc : BalanceCacheEntry)
    (hbc : getBalanceCache now s.store w.address = some bc) (hpos : bc.balance > 0) :
    (syncOne now env btcPrice w s).2.nPrice = s.nPrice ∧
    (syncOne now env btcPrice w s).2.store.balanceCache = s.store.balanceCache := by
  obtain ⟨h1, h2, h3, h4⟩ := fetchWalletData_cached_frame now env w s bc hbc hpos
  have hno : ¬((fetchWalletData now env w s).1.balance = 0 ∧ btcPrice > 0) := by
    rintro ⟨h0, -⟩
    rw [h4] at h0
    exact absurd h0 (ne_of_gt hpos)
  rw [syncOne_no_recheck now env btcPrice w s hno]
  exact ⟨h1, h3⟩

theorem syncAllGo_cons_snd (now : Nat) (env : NetEnv) (btcPrice : ℚ)
    (w : StoredWallet) (ws : List StoredWallet) (s : SyncState) :
    (syncAllGo now env btcPrice (w :: ws) s).2 =
      (syncAllGo now env btcPrice ws (syncOne now env btcPrice w s).2).2 :=
  rfl

/-- Batch loop over wallets whose balance caches are all valid and
positive: no price fetch and no balance-cache write happens at all. -/
theorem syncAllGo_cached (now : Nat) (env : NetEnv) (btcPrice : ℚ)
    (ws : List StoredWallet) (s : SyncState)
    (h : ∀ w ∈ ws, ∃ bc, getBalanceCache now s.store w.address = some bc ∧
      bc.balance > 0) :
    (syncAllGo now env btcPrice ws s).2.nPrice = s.nPrice ∧
    (syncAllGo now env btcPrice ws s).2.store.balanceCache = s.store.balanceCache := by
  induction ws generalizing s with
  | nil => exact ⟨rfl, rfl⟩
  | cons w rest ih =>
    obtain ⟨bc, hbc, hpos⟩ := h w (List.mem_cons_self ..)
    obtain ⟨h1, h2⟩ := syncOne_cached_frame now env btcPrice w s bc hbc hpos
    have hrest : ∀ w' ∈ rest,
        ∃ bc', getBalanceCache now (syncOne now env btcPrice w s).2.store w'.address
            = some bc' ∧ bc'.balance > 0 := by
      intro w' hw'
      obtain ⟨bc', hbc', hpos'⟩ := h w' (List.mem_cons_of_mem _ hw')
      exact ⟨bc', by rw [getBalanceCache_congr h2]; exact hbc', hpos'⟩
    obtain ⟨h3, h4⟩ := ih (syncOne now env btcPrice w s).2 hrest
    rw [syncAllGo_cons_snd]
    exact ⟨h3.trans h1, h4.trans h2⟩

/-- The catch branch when its own address re-fetch succeeds. -/
theorem fetchWalletDataCatch_ok (now : Nat) (env : NetEnv) (w : StoredWallet)
    (sErr : SyncState) (b : ℚ) (h : env.addrResults sErr.nAddr = some b) :
    fetchWalletDataCatch now env w sErr =
      ({ id := w.id, nickname := w.nickname, address := w.address,
         createdAt := w.createdAt,
         balance := b, balanceUSD := b * env.priceResults sErr.nPrice,
         transactions := [], lastUpdated := now,
         hasMoreTxs := false, lastTxId := none },
       { sErr with nAddr := sErr.nAddr + 1, nPrice := sErr.nPrice + 1 }) := by
  unfold fetchWalletDataCatch fetchAddr fetchPrice
  simp only [h]

/-- The catch branch when even the re-fetch throws: all-zero snapshot. -/
theorem fetchWalletDataCatch_err (now : Nat) (env : NetEnv) (w : StoredWallet)
    (sErr : SyncState) (h : env.addrResults sErr.nAddr = none) :
    fetchWalletDataCatch now env w sErr =
      ({ id := w.id, nickname := w.nickname, address := w.address,
         createdAt := w.createdAt,
         balance := 0, balanceUSD := 0,
         transactions := [], lastUpdated := now,
         hasMoreTxs := false, lastTxId := none },
       { sErr with nAddr := sErr.nAddr + 1, nPrice := sErr.nPrice + 1 }) := by
  unfold fetchWalletDataCatch fetchAddr fetchPrice
  simp only [h]

theorem fetchWalletData_of_try_ok (now : Nat) (env : NetEnv) (w : StoredWallet)
    (s : SyncState) (r : Wallet × SyncState)
    (h : fetchWalletDataTry now env w s = Except.ok r) :
    fetchWalletData now env w s = r := by
  unfold fetchWalletData
  rw [h]

theorem fetchWalletData_of_try_error (now : Nat) (env : NetEnv) (w : StoredWallet)
    (s : SyncState) (sErr : SyncState)
    (h : fetchWalletDataTry now env w s = Except.error sErr) :
    fetchWalletData now env w s = fetchWalletDataCatch now env w sErr := by
  unfold fetchWalletData
  rw [h]

theorem fetchWalletDataTry_ok_eq (now : Nat) (env : NetEnv) (w : StoredWallet)
    (s : SyncState) (bal usd : ℚ) (sBal : SyncState)
    (h : balanceStep now env w.address s = Except.ok ((bal, usd), sBal)) :
    fetchWalletDataTry now env w s =
      Except.ok
        ({ id := w.id, nickname := w.nickname, address := w.address,
           createdAt := w.createdAt, balance := bal, balanceUSD := usd,
           transactions := (txStep now env w.address sBal).1.1, lastUpdated := now,
           hasMoreTxs := (txStep now env w.address sBal).1.2.1,
           lastTxId := (txStep now env w.address sBal).1.2.2 },
         (txStep now env w.address sBal).2) := by
  unfold fetchWalletDataTry
  rw [h]

theorem fetchWalletDataTry_error_eq (now : Nat) (env : NetEnv) (w : StoredWallet)
    (s : SyncState) (sErr : SyncState)
    (h : balanceStep now env w.address s = Except.error sErr) :
    fetchWalletDataTry now env w s = Except.error sErr := by
  unfold fetchWalletDataTry
  rw [h]

/-- The function `fetchWalletData` always returns a snapshot for the requested
wallet, whatever the cache and network do. -/
theorem fetchWalletData_snapshot_fields (now : Nat) (env : NetEnv) (w : StoredWallet)
    (s : SyncState) :
    (fetchWalletData now env w s).1.id = w.id ∧
    (fetchWalletData now env w s).1.nickname = w.nickname ∧
    (fetchWalletData now env w s).1.address = w.address ∧
    (fetchWalletData now env w s).1.lastUpdated = now := by
  cases hb : balanceStep now env w.address s with
  | ok v =>
    obtain ⟨⟨bal, usd⟩, sBal⟩ := v
    rw [fetchWalletData_of_try_ok now env w s _
      (fetchWalletDataTry_ok_eq now env w s bal usd sBal hb)]
    exact ⟨rfl, rfl, rfl, rfl⟩
  | error sErr =>
    rw [fetchWalletData_of_try_error now env w s sErr
      (fetchWalletDataTry_error_eq now env w s sErr hb)]
    cases hres : env.addrResults sErr.nAddr with
    | some b =>
      rw [fetchWalletDataCatch_ok now env w sErr b hres]
      exact ⟨rfl, rfl, rfl, rfl⟩
    | none =>
      rw [fetchWalletDataCatch_err now env w sErr hres]
      exact ⟨rfl, rfl, rfl, rfl⟩

/-- A balance-cache miss always issues at least one fresh address fetch
and one fresh price fetch. -/
theorem fetchWalletData_miss_counters (now : Nat) (env : NetEnv) (w : StoredWallet)
    (s : SyncState)
    (hmiss : getBalanceCache now s.store w.address = none ∨
      ∃ bc, getBalanceCache now s.store w.address = some bc ∧ bc.balance ≤ 0) :
    (fetchWalletData now env w s).2.nAddr ≥ s.nAddr + 1 ∧
    (fetchWalletData now env w s).2.nPrice ≥ s.nPrice + 1 := by
  cases hres : env.addrResults s.nAddr with
  | some b =>
    have hok := (balanceStep_miss now env w.address s hmiss).trans
      (freshBalanceStep_ok now env w.address s b hres)
    by_cases hc : b ≥ 0 ∧ env.priceResults s.nPrice > 0
    · rw [if_pos hc] at hok
      have h2 : (fetchWalletData now env w s).2 =
          (txStep now env w.address
            { s with
              nAddr := s.nAddr + 1
              nPrice := s.nPrice + 1
              store := saveBalanceCache now s.store w.address b
                (b * env.priceResults s.nPrice) }).2 := by
        rw [fetchWalletData_of_try_ok now env w s _
          (fetchWalletDataTry_ok_eq now env w s b (b * env.priceResults s.nPrice) _ hok)]
      obtain ⟨t1, t2, -⟩ := txStep_frame now env w.address
        { s with
          nAddr := s.nAddr + 1
          nPrice := s.nPrice + 1
          store := saveBalanceCache now s.store w.address b
            (b * env.priceResults s.nPrice) }
      rw [h2, t1, t2]
      exact ⟨Nat.le.refl, Nat.le.refl⟩
    · rw [if_neg hc] at hok
      have h2 : (fetchWalletData now env w s).2 =
          (txStep now env w.address
            { s with nAddr := s.nAddr + 1, nPrice := s.nPrice + 1 }).2 := by
        rw [fetchWalletData_of_try_ok now env w s _
          (fetchWalletDataTry_ok_eq now env w s b (b * env.priceResults s.nPrice) _ hok)]
      obtain ⟨t1, t2, -⟩ := txStep_frame now env w.address
        { s with nAddr := s.nAddr + 1, nPrice := s.nPrice + 1 }
      rw [h2, t1, t2]
      exact ⟨Nat.le.refl, Nat.le.refl⟩
  | none =>
    have herr := (balanceStep_miss now env w.address s hmiss).trans
      (freshBalanceStep_err now env w.address s hres)
    have hcat := fetchWalletData_of_try_error now env w s _
      (fetchWalletDataTry_error_eq now env w s _ herr)
    cases hres2 : env.addrResults (s.nAddr + 1) with
    | some b =>
      have hres2' : env.addrResults
          ({ s with nAddr := s.nAddr + 1, nPrice := s.nPrice + 1 } : SyncState).nAddr
          = some b := hres2
      rw [hcat, fetchWalletDataCatch_ok now env w _ b hres2']
      exact ⟨Nat.le_succ _, Nat.le_succ _⟩
    | none =>
      have hres2' : env.addrResults
          ({ s with nAddr := s.nAddr + 1, nPrice := s.nPrice + 1 } : SyncState).nAddr
          = none := hres2
      rw [hcat, fetchWalletDataCatch_err now env w _ hres2']
      exact ⟨Nat.le_succ _, Nat.le_succ _⟩

/-! ### Claim theorems: the wallet synchronizer -/

/-- C5: on a valid, strictly positive balance-cache hit the single
wallet sync returns the cached balance and quote balance with no
address/price network fetch; when the cached balance is non-positive or
the entry is absent or expired, a fresh address and price fetch is
always issued. -/
theorem fetchWalletData_balance_policy (now : Nat) (env : NetEnv) (w : StoredWallet)
    (s : SyncState) :
    (∀ bc, getBalanceCache now s.store w.address = some bc → bc.balance > 0 →
      (fetchWalletData now env w s).1.balance = bc.balance ∧
      (fetchWalletData now env w s).1.balanceUSD = bc.balanceUSD ∧
      (fetchWalletData now env w s).2.nAddr = s.nAddr ∧
      (fetchWalletData now env w s).2.nPrice = s.nPrice) ∧
    ((getBalanceCache now s.store w.address = none ∨
        ∃ bc, getBalanceCache now s.store w.address = some bc ∧ bc.balance ≤ 0) →
      (fetchWalletData now env w s).2.nAddr ≥ s.nAddr + 1 ∧
      (fetchWalletData now env w s).2.nPrice ≥ s.nPrice + 1) := by
  constructor
  · intro bc hbc hpos
    rw [fetchWalletData_cached now env w s bc hbc hpos]
    obtain ⟨t1, t2, -⟩ := txStep_frame now env w.address s
    exact ⟨rfl, rfl, t2, t1⟩
  · exact fetchWalletData_miss_counters now env w s

/-- C5 (witness): a fresh positive entry is used without fetches; the
empty store always triggers a fetch. -/
theorem fetchWalletData_balance_policy_wit :
    ((fetchWalletData 0 quietEnv wMe (initState storeBalMe)).1.balance
        = bcePositive.balance ∧
      (fetchWalletData 0 quietEnv wMe (initState storeBalMe)).1.balanceUSD
        = bcePositive.balanceUSD ∧
      (fetchWalletData 0 quietEnv wMe (initState storeBalMe)).2.nAddr
        = (initState storeBalMe).nAddr ∧
      (fetchWalletData 0 quietEnv wMe (initState storeBalMe)).2.nPrice
        = (initState storeBalMe).nPrice) ∧
    ((fetchWalletData 0 quietEnv wMe (initState emptyStore)).2.nAddr
        ≥ (initState emptyStore).nAddr + 1 ∧
      (fetchWalletData 0 quietEnv wMe (initState emptyStore)).2.nPrice
        ≥ (initState emptyStore).nPrice + 1) :=
  ⟨(fetchWalletData_balance_policy 0 quietEnv wMe (initState storeBalMe)).1
      bcePositive rfl (by decide),
   (fetchWalletData_balance_policy 0 quietEnv wMe (initState emptyStore)).2
      (Or.inl rfl)⟩

/-- C6: `fetchWalletData` is total — it always returns a snapshot for
the requested wallet; when the balance cache misses and the fresh
address fetch throws, it falls back to a minimal balance+price fetch
with no transactions, and to an all-zero snapshot when the fallback
address fetch throws too. -/
theorem fetchWalletData_never_faults (now : Nat) (env : NetEnv) (w : StoredWallet)
    (s : SyncState) :
    ((fetchWalletData now env w s).1.id = w.id ∧
      (fetchWalletData now env w s).1.nickname = w.nickname ∧
      (fetchWalletData now env w s).1.address = w.address ∧
      (fetchWalletData now env w s).1.lastUpdated = now) ∧
    ((getBalanceCache now s.store w.address = none ∨
        ∃ bc, getBalanceCache now s.store w.address = some bc ∧ bc.balance ≤ 0) →
      env.addrResults s.nAddr = none →
      (∀ b, env.addrResults (s.nAddr + 1) = some b →
        (fetchWalletData now env w s).1 =
          { id := w.id, nickname := w.nickname, address := w.address,
            createdAt := w.createdAt, balance := b,
            balanceUSD := b * env.priceResults (s.nPrice + 1), transactions := [],
            lastUpdated := now, hasMoreTxs := false, lastTxId := none }) ∧
      (env.addrResults (s.nAddr + 1) = none →
        (fetchWalletData now env w s).1 =
          { id := w.id, nickname := w.nickname, address := w.address,
            createdAt := w.createdAt, balance := 0, balanceUSD := 0,
            transactions := [], lastUpdated := now, hasMoreTxs := false,
            lastTxId := none })) := by
  refine ⟨fetchWalletData_snapshot_fields now env w s, ?_⟩
  intro hmiss hfail
  have herr := (balanceStep_miss now env w.address s hmiss).trans
    (freshBalanceStep_err now env w.address s hfail)
  have hcat := fetchWalletData_of_try_error now env w s _
    (fetchWalletDataTry_error_eq now env w s _ herr)
  constructor
  · intro b hres2
    have hres2' : env.addrResults
        ({ s with nAddr := s.nAddr + 1, nPrice := s.nPrice + 1 } : SyncState).nAddr
        = some b := hres2
    rw [hcat, fetchWalletDataCatch_ok now env w _ b hres2']
  · intro hres2
    have hres2' : env.addrResults
        ({ s with nAddr := s.nAddr + 1, nPrice := s.nPrice + 1 } : SyncState).nAddr
        = none := hres2
    rw [hcat, fetchWalletDataCatch_err now env w _ hres2']

/-- C6 (witness): with the dead network, the sync of a fresh wallet
returns the all-zero snapshot. -/
theorem fetchWalletData_never_faults_wit :
    (fetchWalletData 0 deadEnv wMe (initState emptyStore)).1 =
      { id := wMe.id, nickname := wMe.nickname, address := wMe.address,
        createdAt := wMe.createdAt, balance := 0, balanceUSD := 0,
        transactions := [], lastUpdated := 0, hasMoreTxs := false,
        lastTxId := none } :=
  ((fetchWalletData_never_faults 0 deadEnv wMe (initState emptyStore)).2
    (Or.inl rfl) rfl).2 rfl

/-- C3 (counterexample): a batch sync of a single wallet with an empty
balance cache issues TWO price fetches (one up-front plus one inside the
per-wallet sync), not exactly one. -/
theorem fetchAllWalletsData_two_price_fetches :
    (fetchAllWalletsData 0 quietEnv [wMe] (initState emptyStore)).2.nPrice = 2 ∧
    (initState emptyStore).nPrice = 0 := by
  constructor
  · rfl
  · rfl

/-- C3 (amended): a batch sync issues exactly one price fetch in total
provided every wallet's balance cache entry is valid and strictly
positive; a wallet whose balance cache misses adds its own price fetch
inside the single-wallet sync. -/
theorem fetchAllWalletsData_one_price (now : Nat) (env : NetEnv)
    (wallets : List StoredWallet) (s0 : SyncState)
    (h : ∀ w ∈ wallets, ∃ bc, getBalanceCache now s0.store w.address = some bc ∧
      bc.balance > 0) :
    (fetchAllWalletsData now env wallets s0).2.nPrice = s0.nPrice + 1 := by
  unfold fetchAllWalletsData fetchPrice
  obtain ⟨h1, -⟩ := syncAllGo_cached now env (env.priceResults s0.nPrice) wallets
    { s0 with nPrice := s0.nPrice + 1 } h
  exact h1

/-- C3 (witness): two wallets, both with valid positive cached
balances: a single price fetch. -/
theorem fetchAllWalletsData_one_price_wit :
    (fetchAllWalletsData 0 quietEnv [wMe, wYou] (initState storeBalBoth)).2.nPrice
      = (initState storeBalBoth).nPrice + 1 := by
  refine fetchAllWalletsData_one_price 0 quietEnv [wMe, wYou] (initState storeBalBoth) ?_
  intro w hw
  rcases List.mem_cons.mp hw with rfl | hw
  · exact ⟨bcePositive, rfl, by decide⟩
  rcases List.mem_cons.mp hw with rfl | hw
  · exact ⟨⟨2, 100000, 0⟩, rfl, by decide⟩
  · cases hw

/-- C9 (counterexample): a batch sync in which the up-front price fetch
failed (price 0) accepts a zero wallet balance WITHOUT any extra
address re-fetch — only the one fetch of the per-wallet sync happens,
so the re-fetch is not unconditional. -/
theorem fetchAllWalletsData_no_recheck_cx :
    (fetchAllWalletsData 0 priceZeroEnv [wMe] (initState emptyStore)).1.map
      Wallet.balance = [0] ∧
    (fetchAllWalletsData 0 priceZeroEnv [wMe] (initState emptyStore)).2.nAddr = 1 := by
  constructor
  · rfl
  · rfl

/-- C9 (amended): in the batch loop, when a wallet's sync returns
balance zero AND the up-front price is positive, exactly one extra
address re-fetch is issued, its result adopted only when strictly
positive (zero kept when the re-fetch fails or is non-positive); when
the up-front price is not positive, no re-fetch happens at all. -/
theorem syncOne_zero_recheck (now : Nat) (env : NetEnv) (btcPrice : ℚ)
    (w : StoredWallet) (s : SyncState) :
    ((fetchWalletData now env w s).1.balance = 0 → btcPrice > 0 →
      (syncOne now env btcPrice w s).2.nAddr
          = (fetchWalletData now env w s).2.nAddr + 1 ∧
      (∀ b, env.addrResults (fetchWalletData now env w s).2.nAddr = some b →
        b > 0 → (syncOne now env btcPrice w s).1.balance = b) ∧
      (∀ b, env.addrResults (fetchWalletData now env w s).2.nAddr = some b →
        ¬(b > 0) → (syncOne now env btcPrice w s).1.balance = 0) ∧
      (env.addrResults (fetchWalletData now env w s).2.nAddr = none →
        (syncOne now env btcPrice w s).1.balance = 0)) ∧
    (¬((fetchWalletData now env w s).1.balance = 0 ∧ btcPrice > 0) →
      syncOne now env btcPrice w s = fetchWalletData now env w s) := by
  constructor
  · intro h0 hp
    unfold syncOne
    rcases hfw : fetchWalletData now env w s with ⟨W, S⟩
    rw [hfw] at h0
    simp only [hfw]
    rw [if_pos ⟨h0, hp⟩]
    cases hres : env.addrResults S.nAddr with
    | some b =>
      simp only [fetchAddr, hres]
      by_cases hb : b > 0
      · rw [if_pos hb]
        refine ⟨rfl, ?_, ?_, ?_⟩
        · intro b' hres' hb'
          cases hres'
          rfl
        · intro b' hres' hb'
          cases hres'
          exact absurd hb hb'
        · intro hres'
          cases hres'
      · rw [if_neg hb]
        refine ⟨rfl, ?_, ?_, ?_⟩
        · intro b' hres' hb'
          cases hres'
          exact absurd hb' hb
        · intro b' hres' hb'
          exact h0
        · intro hres'
          cases hres'
    | none =>
      simp only [fetchAddr, hres]
      refine ⟨?_, ?_, ?_, ?_⟩
      · trivial
      · intro b' hres' hb'
        cases hres'
      · intro b' hres' hb'
        cases hres'
      · exact fun _ => h0
  · exact syncOne_no_recheck now env btcPrice w s

/-- C9 (witness): balance comes back zero, the up-front price is 5, the
re-fetch returns 2: one extra address fetch, balance corrected to 2. -/
theorem syncOne_zero_recheck_wit :
    (syncOne 0 zeroThenTwoEnv 5 wMe (initState emptyStore)).1.balance = 2 ∧
    (syncOne 0 zeroThenTwoEnv 5 wMe (initState emptyStore)).2.nAddr
      = (fetchWalletData 0 zeroThenTwoEnv wMe (initState emptyStore)).2.nAddr + 1 :=
  ⟨((syncOne_zero_recheck 0 zeroThenTwoEnv 5 wMe (initState emptyStore)).1
      rfl (by decide)).2.1 2 rfl (by decide),
   ((syncOne_zero_recheck 0 zeroThenTwoEnv 5 wMe (initState emptyStore)).1
      rfl (by decide)).1⟩

end Mikrypto
